import Mathlib

/-!
Shallow embedding of the Vault ledger plugin (`src/vault/vault.py`).

The ledger keeps an `accounts` table (`data`) mapping a unique name to an
open timestamp and a decimal balance, plus an append-only `log` table.
Python `Decimal` balances and amounts are modelled as `ℚ` (Decimal
arithmetic used here is only `+`, `-`, and order comparison, all exact, so
rationals are a faithful superset).  SQLite rows of the `data` table are
kept as a list in insertion (rowid) order, matching the order in which
`select * from data` returns rows and hence the insertion order of the
Python dict built by `__get_all_data`.  The log `id` column is a fresh
`uuid4` used only as a primary key and never read by the plugin, so it is
omitted; row timestamps (`int(time.time())`) are passed in as an explicit
`now` argument.

Python methods raise exceptions; an operation is embedded as a function
returning `Option VErr × LState`, where the first component is `some e`
exactly when the Python method raises `e`, and the second component is the
database state at the moment the method returns or raises.  Because the
state at the raise point is returned explicitly, a hypothetical embedding
of code that wrote before raising would visibly return a mutated state,
so "rejection leaves the state untouched" is a real theorem, not an
artifact of the encoding.
-/

namespace Vault

/-- Errors raised by `vault.py`.  `invariantViolation` stands for the
`sqlite3.IntegrityError` produced when the `check (balance>=0)` column
constraint of the `data` table rejects a write. -/
inductive VErr where
  | accountNotExists
  | amountIllegal
  | insufficientBalance
  | invariantViolation
deriving DecidableEq, Repr

/-- One row of the `data` table: `time` is the open timestamp written at
creation, `balance` the decimal balance (stored as text in SQLite). -/
structure Account where
  time : ℕ
  balance : ℚ
deriving DecidableEq, Repr

/-- One row of the `log` table, minus the `uuid4` primary key which the
plugin never reads.  Fields follow `Vault.__log`. -/
structure LogEntry where
  time : ℕ
  debit : String
  credit : String
  amount : ℚ
deriving DecidableEq, Repr

/-- The database: `data` rows in insertion (rowid) order, `log` rows in
insertion order (oldest first). -/
structure LState where
  data : List (String × Account)
  log : List LogEntry
deriving DecidableEq, Repr

/-- The empty database created by `Vault.__connect`. -/
def initState : LState := ⟨[], []⟩

/-- Row lookup by primary key `name` (first matching row; names are unique
in any state the code produces, since `create_account` checks membership
before inserting). -/
def lookupAccount (name : String) : List (String × Account) → Option Account
  | [] => none
  | p :: rest => if p.1 = name then some p.2 else lookupAccount name rest

/-- Embeds `Vault.is_account`: `name in self.__get_all_data()`. -/
def is_account (name : String) (s : LState) : Bool :=
  (lookupAccount name s.data).isSome

/-- Embeds `Vault.__get_balance`.  The Python dict lookup raises `KeyError`
on a missing name; every call site first checks `is_account`, so the
default value `0` of the missing branch is never observed. -/
def getBalanceD (name : String) (s : LState) : ℚ :=
  match lookupAccount name s.data with
  | some a => a.balance
  | none => 0

/-- The `update data set balance=? where name=?` statement of
`Vault.__set_balance`: every row whose `name` matches gets the new
balance; `time` and all other rows are untouched. -/
def writeBalance (name : String) (b : ℚ) (d : List (String × Account)) :
    List (String × Account) :=
  d.map fun p => if p.1 = name then (p.1, { p.2 with balance := b }) else p

/-- Embeds `Vault.__set_balance` together with the `check ( balance>=0 )`
column constraint declared in `Vault.__connect`.  The column stores
`str(balance)` as text; SQLite gives the literal `0` TEXT affinity for the
comparison, so the check is a lexicographic comparison of the stored text
with the string `0`.  Every rendering of a negative `Decimal` starts with
the character `-` (0x2D), which sorts before `0` (0x30), and every
rendering of a non-negative `Decimal` starts with a digit, so for the
strings this program stores the check passes exactly when the value is
non-negative.  A rejected write raises `sqlite3.IntegrityError`
(`invariantViolation`) and leaves the row unchanged. -/
def set_balance (name : String) (b : ℚ) (s : LState) : Option VErr × LState :=
  if b < 0 then (some .invariantViolation, s)
  else (none, { s with data := writeBalance name b s.data })

/-- Embeds `Vault.__log`: inserts one row at the end of the `log` table. -/
def writeLog (now : ℕ) (debit credit : String) (amount : ℚ) (s : LState) :
    LState :=
  { s with log := s.log ++ [⟨now, debit, credit, amount⟩] }

/-- Embeds `Vault.create_account`: inserts the row `(name, now, 0.00)` only when
the name is absent; an existing account is left untouched and nothing is
logged. -/
def create_account (name : String) (now : ℕ) (s : LState) : LState :=
  if ¬ is_account name s then { s with data := s.data ++ [(name, ⟨now, 0⟩)] }
  else s

/-- Embeds `Vault.get_balance` (the public read): raises
`AccountNotExistsError` on a missing account, otherwise returns the
balance. -/
def get_balance (name : String) (s : LState) : Except VErr ℚ :=
  if ¬ is_account name s then .error .accountNotExists
  else .ok (getBalanceD name s)

/-- Embeds `Vault.get_open_time`. -/
def get_open_time (name : String) (s : LState) : Except VErr ℕ :=
  if ¬ is_account name s then .error .accountNotExists
  else .ok (((lookupAccount name s.data).map Account.time).getD 0)

/-- Embeds `Vault.get_logs`: the full log, insertion order. -/
def get_logs (s : LState) : List LogEntry := s.log

/-- The comparison under which `sorted(data.items(), key=lambda d: d[1],
reverse=True)` orders entries: `a` may precede `b` iff the balance of `b`
is at most the balance of `a`.  Python `sorted` is stable, and `reverse=True` inverts the
comparison without disturbing ties, so a stable insertion sort under this
relation is extensionally the same function. -/
def rankGe (a b : String × ℚ) : Prop := b.2 ≤ a.2

instance : DecidableRel rankGe := fun a b => inferInstanceAs (Decidable (b.2 ≤ a.2))

instance : IsTotal (String × ℚ) rankGe := ⟨fun a b => le_total b.2 a.2⟩

instance : IsTrans (String × ℚ) rankGe := ⟨fun _ _ _ h1 h2 => le_trans h2 h1⟩

/-- Embeds `Vault.get_ranking`: project each row to `(name, balance)` and
stably sort by balance, descending.  The Python function returns a dict,
which preserves the sorted insertion order, so a list is a faithful
model. -/
def get_ranking (s : LState) : List (String × ℚ) :=
  List.insertionSort rankGe (s.data.map fun p => (p.1, p.2.balance))

/-- Embeds `Vault.give`, mirroring the `if`/`elif` chain: existence check,
then the `amount <= 0` check, then read-add-write and one log row
`(debit=operator, credit=name, amount)`.  An `IntegrityError` from the
balance write (impossible while balances stay non-negative) would
propagate before anything is logged. -/
def give (name : String) (amount : ℚ) (operator : String) (now : ℕ)
    (s : LState) : Option VErr × LState :=
  if ¬ is_account name s then (some .accountNotExists, s)
  else if amount ≤ 0 then (some .amountIllegal, s)
  else
    match set_balance name (getBalanceD name s + amount) s with
    | (some e, s1) => (some e, s1)
    | (none, s1) => (none, writeLog now operator name amount s1)

/-- Embeds `Vault.take`: existence check, `amount <= 0` check,
`amount > balance` check, then read-subtract-write and one log row
`(debit=operator, credit=name, -amount)`. -/
def take (name : String) (amount : ℚ) (operator : String) (now : ℕ)
    (s : LState) : Option VErr × LState :=
  if ¬ is_account name s then (some .accountNotExists, s)
  else if amount ≤ 0 then (some .amountIllegal, s)
  else if amount > getBalanceD name s then (some .insufficientBalance, s)
  else
    match set_balance name (getBalanceD name s - amount) s with
    | (some e, s1) => (some e, s1)
    | (none, s1) => (none, writeLog now operator name (-amount) s1)

/-- Embeds `Vault.set`: existence check, `amount < 0` check (zero is
allowed), then write `amount` and log the delta `amount - balance_old`. -/
def set (name : String) (amount : ℚ) (operator : String) (now : ℕ)
    (s : LState) : Option VErr × LState :=
  if ¬ is_account name s then (some .accountNotExists, s)
  else if amount < 0 then (some .amountIllegal, s)
  else
    match set_balance name amount s with
    | (some e, s1) => (some e, s1)
    | (none, s1) => (none, writeLog now operator name (amount - getBalanceD name s) s1)

/-- Embeds `Vault.transfer`: both-exist check, `amount <= 0` check,
`amount > balance(debit)` check; then both old balances are read, the
debit row is written, the credit row is written, and one log row
`(debit, credit, amount)` is appended.  The source locals `debit_old`
and `credit_old` are inlined here: both are read from the pre-transfer
state `s` (lines 309-310), before either write happens, so the credit
write is computed from a balance that does not see the debit write. -/
def transfer (debit credit : String) (amount : ℚ) (now : ℕ) (s : LState) :
    Option VErr × LState :=
  if ¬ (is_account debit s ∧ is_account credit s) then
    (some .accountNotExists, s)
  else if amount ≤ 0 then (some .amountIllegal, s)
  else if amount > getBalanceD debit s then (some .insufficientBalance, s)
  else
    match set_balance debit (getBalanceD debit s - amount) s with
    | (some e, s1) => (some e, s1)
    | (none, s1) =>
      match set_balance credit (getBalanceD credit s + amount) s1 with
      | (some e, s2) => (some e, s2)
      | (none, s2) => (none, writeLog now debit credit amount s2)

/-- One Ledger API call, successful or not: the relation between the state
before a call and the state when the call returns or raises. -/
inductive Step : LState → LState → Prop where
  | create (name : String) (now : ℕ) (s : LState) :
      Step s (create_account name now s)
  | give (name : String) (amount : ℚ) (operator : String) (now : ℕ)
      (s : LState) : Step s (give name amount operator now s).2
  | take (name : String) (amount : ℚ) (operator : String) (now : ℕ)
      (s : LState) : Step s (take name amount operator now s).2
  | set (name : String) (amount : ℚ) (operator : String) (now : ℕ)
      (s : LState) : Step s (set name amount operator now s).2
  | transfer (debit credit : String) (amount : ℚ) (now : ℕ) (s : LState) :
      Step s (transfer debit credit amount now s).2

/-- States reachable from the freshly created database by any sequence of
API calls. -/
def Reachable (s : LState) : Prop :=
  Relation.ReflTransGen Step initState s

/-- All balances in the `data` table are non-negative. -/
def InvD (d : List (String × Account)) : Prop :=
  ∀ p ∈ d, 0 ≤ p.2.balance

/-! ### Helper lemmas about row lookup and the balance write -/

lemma lookupAccount_append_of_none {n : String} {d : List (String × Account)}
    (l : List (String × Account)) (h : lookupAccount n d = none) :
    lookupAccount n (d ++ l) = lookupAccount n l := by
  induction d with
  | nil => simp
  | cons p rest ih =>
    by_cases hp : p.1 = n
    · simp [lookupAccount, hp] at h
    · simp only [lookupAccount, hp, if_false] at h ⊢
      exact ih h

lemma lookupAccount_append_of_some {n : String} {d : List (String × Account)}
    {a : Account} (l : List (String × Account)) (h : lookupAccount n d = some a) :
    lookupAccount n (d ++ l) = some a := by
  induction d with
  | nil => simp [lookupAccount] at h
  | cons p rest ih =>
    by_cases hp : p.1 = n
    · simp only [lookupAccount, hp, if_true] at h ⊢
      exact h
    · simp only [lookupAccount, hp, if_false] at h ⊢
      exact ih h

lemma lookupAccount_writeBalance_self (n : String) (b : ℚ)
    (d : List (String × Account)) :
    lookupAccount n (writeBalance n b d) =
      (lookupAccount n d).map fun a => { a with balance := b } := by
  induction d with
  | nil => simp [lookupAccount, writeBalance]
  | cons p rest ih =>
    by_cases hp : p.1 = n
    · simp [lookupAccount, writeBalance, hp]
    · simp only [writeBalance, List.map_cons, if_neg hp, lookupAccount, hp,
        if_false] at ih ⊢
      exact ih

lemma lookupAccount_writeBalance_ne {x n : String} (hx : x ≠ n) (b : ℚ)
    (d : List (String × Account)) :
    lookupAccount x (writeBalance n b d) = lookupAccount x d := by
  induction d with
  | nil => simp [lookupAccount, writeBalance]
  | cons p rest ih =>
    by_cases hp : p.1 = n
    · have hpx : ¬ p.1 = x := by simp [hp]; exact fun h => hx h.symm
      simp only [writeBalance, List.map_cons, if_pos hp, lookupAccount,
        if_neg hpx] at ih ⊢
      exact ih
    · simp only [writeBalance, List.map_cons, if_neg hp, lookupAccount] at ih ⊢
      split <;> [rfl; exact ih]

lemma lookupAccount_writeBalance_time (x n : String) (b : ℚ)
    (d : List (String × Account)) :
    (lookupAccount x (writeBalance n b d)).map Account.time =
      (lookupAccount x d).map Account.time := by
  by_cases hx : x = n
  · subst hx
    rw [lookupAccount_writeBalance_self]
    cases lookupAccount x d <;> rfl
  · rw [lookupAccount_writeBalance_ne hx]

lemma writeBalance_writeBalance (n : String) (b1 b2 : ℚ)
    (d : List (String × Account)) :
    writeBalance n b2 (writeBalance n b1 d) = writeBalance n b2 d := by
  induction d with
  | nil => rfl
  | cons p rest ih =>
    by_cases hp : p.1 = n <;>
      simp only [writeBalance, List.map_cons, hp, if_true, if_false,
        List.cons.injEq] at ih ⊢ <;> exact ⟨trivial, ih⟩

lemma writeBalance_invD {d : List (String × Account)} {b : ℚ} (n : String)
    (h : InvD d) (hb : 0 ≤ b) : InvD (writeBalance n b d) := by
  intro p hp
  rcases List.mem_map.mp hp with ⟨q, hq, hqp⟩
  by_cases hqn : q.1 = n
  · simp only [if_pos hqn] at hqp
    rw [← hqp]
    exact hb
  · simp only [if_neg hqn] at hqp
    rw [← hqp]
    exact h q hq

/-! ### Helper lemmas about `set_balance` (balance write + check constraint) -/

lemma set_balance_of_nonneg {b : ℚ} (n : String) (s : LState) (h : 0 ≤ b) :
    set_balance n b s = (none, { s with data := writeBalance n b s.data }) := by
  simp [set_balance, not_lt.mpr h]

lemma set_balance_err {n : String} {b : ℚ} {s : LState} {e : VErr}
    (h : (set_balance n b s).1 = some e) :
    e = VErr.invariantViolation ∧ (set_balance n b s).2 = s := by
  unfold set_balance at h ⊢
  split at h
  · simp_all
  · simp at h

lemma set_balance_invD {n : String} {b : ℚ} {s : LState} (h : InvD s.data) :
    InvD (set_balance n b s).2.data := by
  unfold set_balance
  split
  · exact h
  · exact writeBalance_invD n h (not_lt.mp (by assumption))

lemma set_balance_lookup_ne {x n : String} (hx : x ≠ n) (b : ℚ) (s : LState) :
    lookupAccount x (set_balance n b s).2.data = lookupAccount x s.data := by
  unfold set_balance
  split
  · rfl
  · exact lookupAccount_writeBalance_ne hx b s.data

lemma set_balance_lookup_time (x n : String) (b : ℚ) (s : LState) :
    (lookupAccount x (set_balance n b s).2.data).map Account.time =
      (lookupAccount x s.data).map Account.time := by
  unfold set_balance
  split
  · rfl
  · exact lookupAccount_writeBalance_time x n b s.data

/-! ### Shape of the final state of each mutating operation -/

lemma give_snd_data (n : String) (a : ℚ) (o : String) (t : ℕ) (s : LState) :
    (give n a o t s).2.data = s.data ∨
      (give n a o t s).2.data = (set_balance n (getBalanceD n s + a) s).2.data := by
  unfold give
  by_cases h1 : is_account n s
  · rw [if_neg (not_not_intro h1)]
    by_cases h2 : a ≤ 0
    · rw [if_pos h2]
      exact Or.inl rfl
    · rw [if_neg h2]
      rcases hsb : set_balance n (getBalanceD n s + a) s with ⟨e1, s1⟩
      cases e1 <;> simp [writeLog]
  · rw [if_pos h1]
    exact Or.inl rfl

lemma take_snd_data (n : String) (a : ℚ) (o : String) (t : ℕ) (s : LState) :
    (take n a o t s).2.data = s.data ∨
      (take n a o t s).2.data = (set_balance n (getBalanceD n s - a) s).2.data := by
  unfold take
  by_cases h1 : is_account n s
  · rw [if_neg (not_not_intro h1)]
    by_cases h2 : a ≤ 0
    · rw [if_pos h2]
      exact Or.inl rfl
    · rw [if_neg h2]
      by_cases h3 : a > getBalanceD n s
      · rw [if_pos h3]
        exact Or.inl rfl
      · rw [if_neg h3]
        rcases hsb : set_balance n (getBalanceD n s - a) s with ⟨e1, s1⟩
        cases e1 <;> simp [writeLog]
  · rw [if_pos h1]
    exact Or.inl rfl

lemma set_snd_data (n : String) (a : ℚ) (o : String) (t : ℕ) (s : LState) :
    (set n a o t s).2.data = s.data ∨
      (set n a o t s).2.data = (set_balance n a s).2.data := by
  unfold set
  by_cases h1 : is_account n s
  · rw [if_neg (not_not_intro h1)]
    by_cases h2 : a < 0
    · rw [if_pos h2]
      exact Or.inl rfl
    · rw [if_neg h2]
      rcases hsb : set_balance n a s with ⟨e1, s1⟩
      cases e1 <;> simp [writeLog]
  · rw [if_pos h1]
    exact Or.inl rfl

lemma transfer_snd_data (d c : String) (a : ℚ) (t : ℕ) (s : LState) :
    (transfer d c a t s).2.data = s.data ∨
      (transfer d c a t s).2.data = (set_balance d (getBalanceD d s - a) s).2.data ∨
      (transfer d c a t s).2.data =
        (set_balance c (getBalanceD c s + a)
          (set_balance d (getBalanceD d s - a) s).2).2.data := by
  unfold transfer
  by_cases h1 : is_account d s = true ∧ is_account c s = true
  · rw [if_neg (not_not_intro h1)]
    by_cases h2 : a ≤ 0
    · rw [if_pos h2]
      exact Or.inl rfl
    · rw [if_neg h2]
      by_cases h3 : a > getBalanceD d s
      · rw [if_pos h3]
        exact Or.inl rfl
      · rw [if_neg h3]
        rcases hsb : set_balance d (getBalanceD d s - a) s with ⟨e1, s1⟩
        cases e1 with
        | some err => simp
        | none =>
          rcases hsb2 : set_balance c (getBalanceD c s + a) s1 with ⟨e2, s2⟩
          cases e2 <;> simp [hsb2, writeLog]
  · rw [if_pos h1]
    exact Or.inl rfl

/-! ### A rejection returns the original state -/

lemma give_err {n : String} {a : ℚ} {o : String} {t : ℕ} {s : LState} {e : VErr}
    (h : (give n a o t s).1 = some e) (he : e ≠ VErr.invariantViolation) :
    give n a o t s = (some e, s) := by
  unfold give at h ⊢
  by_cases h1 : is_account n s
  · rw [if_neg (not_not_intro h1)] at h ⊢
    by_cases h2 : a ≤ 0
    · rw [if_pos h2] at h ⊢
      simp at h
      rw [h]
    · rw [if_neg h2] at h ⊢
      rcases hsb : set_balance n (getBalanceD n s + a) s with ⟨e1, s1⟩
      cases e1 with
      | some err =>
        rcases @set_balance_err _ _ _ err (by rw [hsb]) with ⟨hinv, _⟩
        simp only [hsb] at h
        simp at h
        simp_all
      | none =>
        simp only [hsb] at h
        simp at h
  · rw [if_pos h1] at h ⊢
    simp at h
    rw [h]

lemma take_err {n : String} {a : ℚ} {o : String} {t : ℕ} {s : LState} {e : VErr}
    (h : (take n a o t s).1 = some e) (he : e ≠ VErr.invariantViolation) :
    take n a o t s = (some e, s) := by
  unfold take at h ⊢
  by_cases h1 : is_account n s
  · rw [if_neg (not_not_intro h1)] at h ⊢
    by_cases h2 : a ≤ 0
    · rw [if_pos h2] at h ⊢
      simp at h
      rw [h]
    · rw [if_neg h2] at h ⊢
      by_cases h3 : a > getBalanceD n s
      · rw [if_pos h3] at h ⊢
        simp at h
        rw [h]
      · rw [if_neg h3] at h ⊢
        rcases hsb : set_balance n (getBalanceD n s - a) s with ⟨e1, s1⟩
        cases e1 with
        | some err =>
          rcases @set_balance_err _ _ _ err (by rw [hsb]) with ⟨hinv, _⟩
          simp only [hsb] at h
          simp at h
          simp_all
        | none =>
          simp only [hsb] at h
          simp at h
  · rw [if_pos h1] at h ⊢
    simp at h
    rw [h]

lemma set_err {n : String} {a : ℚ} {o : String} {t : ℕ} {s : LState} {e : VErr}
    (h : (set n a o t s).1 = some e) (he : e ≠ VErr.invariantViolation) :
    set n a o t s = (some e, s) := by
  unfold set at h ⊢
  by_cases h1 : is_account n s
  · rw [if_neg (not_not_intro h1)] at h ⊢
    by_cases h2 : a < 0
    · rw [if_pos h2] at h ⊢
      simp at h
      rw [h]
    · rw [if_neg h2] at h ⊢
      rcases hsb : set_balance n a s with ⟨e1, s1⟩
      cases e1 with
      | some err =>
        rcases @set_balance_err _ _ _ err (by rw [hsb]) with ⟨hinv, _⟩
        simp only [hsb] at h
        simp at h
        simp_all
      | none =>
        simp only [hsb] at h
        simp at h
  · rw [if_pos h1] at h ⊢
    simp at h
    rw [h]

lemma transfer_err {d c : String} {a : ℚ} {t : ℕ} {s : LState} {e : VErr}
    (h : (transfer d c a t s).1 = some e) (he : e ≠ VErr.invariantViolation) :
    transfer d c a t s = (some e, s) := by
  unfold transfer at h ⊢
  by_cases h1 : is_account d s = true ∧ is_account c s = true
  · rw [if_neg (not_not_intro h1)] at h ⊢
    by_cases h2 : a ≤ 0
    · rw [if_pos h2] at h ⊢
      simp at h
      rw [h]
    · rw [if_neg h2] at h ⊢
      by_cases h3 : a > getBalanceD d s
      · rw [if_pos h3] at h ⊢
        simp at h
        rw [h]
      · rw [if_neg h3] at h ⊢
        rcases hsb : set_balance d (getBalanceD d s - a) s with ⟨e1, s1⟩
        cases e1 with
        | some err =>
          rcases @set_balance_err _ _ _ err (by rw [hsb]) with ⟨hinv, _⟩
          simp only [hsb] at h
          simp at h
          simp_all
        | none =>
          rcases hsb2 : set_balance c (getBalanceD c s + a) s1 with ⟨e2, s2⟩
          cases e2 with
          | some err =>
            rcases @set_balance_err _ _ _ err (by rw [hsb2]) with ⟨hinv, _⟩
            simp only [hsb, hsb2] at h
            simp at h
            simp_all
          | none =>
            simp only [hsb, hsb2] at h
            simp at h
  · rw [if_pos h1] at h ⊢
    simp at h
    rw [h]

/-! ### Preservation of the non-negativity invariant -/

lemma create_account_invD {s : LState} (n : String) (t : ℕ)
    (h : InvD s.data) : InvD (create_account n t s).data := by
  unfold create_account
  split
  · intro p hp
    rcases List.mem_append.mp hp with hp1 | hp1
    · exact h p hp1
    · simp at hp1
      simp [hp1]
  · exact h

lemma give_invD {s : LState} (n : String) (a : ℚ) (o : String) (t : ℕ)
    (h : InvD s.data) : InvD (give n a o t s).2.data := by
  rcases give_snd_data n a o t s with h1 | h1 <;> rw [h1]
  · exact h
  · exact set_balance_invD h

lemma take_invD {s : LState} (n : String) (a : ℚ) (o : String) (t : ℕ)
    (h : InvD s.data) : InvD (take n a o t s).2.data := by
  rcases take_snd_data n a o t s with h1 | h1 <;> rw [h1]
  · exact h
  · exact set_balance_invD h

lemma set_invD {s : LState} (n : String) (a : ℚ) (o : String) (t : ℕ)
    (h : InvD s.data) : InvD (set n a o t s).2.data := by
  rcases set_snd_data n a o t s with h1 | h1 <;> rw [h1]
  · exact h
  · exact set_balance_invD h

lemma transfer_invD {s : LState} (d c : String) (a : ℚ) (t : ℕ)
    (h : InvD s.data) : InvD (transfer d c a t s).2.data := by
  rcases transfer_snd_data d c a t s with h1 | h1 | h1 <;> rw [h1]
  · exact h
  · exact set_balance_invD h
  · exact set_balance_invD (set_balance_invD h)

/-! ### The successful path of each mutating operation -/

lemma is_account_iff {n : String} {s : LState} :
    is_account n s = true ↔ ∃ a, lookupAccount n s.data = some a := by
  unfold is_account
  exact Option.isSome_iff_exists

lemma getBalanceD_after_write {n : String} {d : List (String × Account)}
    {acct : Account} (hl : lookupAccount n d = some acct) (b : ℚ)
    (l : List LogEntry) : getBalanceD n ⟨writeBalance n b d, l⟩ = b := by
  unfold getBalanceD
  rw [show (LState.mk (writeBalance n b d) l).data = writeBalance n b d from rfl,
    lookupAccount_writeBalance_self, hl]
  rfl

lemma give_of_valid {n : String} {a : ℚ} {o : String} {t : ℕ} {s : LState}
    (h1 : is_account n s = true) (h2 : ¬ a ≤ 0) (h3 : 0 ≤ getBalanceD n s) :
    give n a o t s =
      (none, ⟨writeBalance n (getBalanceD n s + a) s.data,
              s.log ++ [⟨t, o, n, a⟩]⟩) := by
  have hb : 0 ≤ getBalanceD n s + a := add_nonneg h3 (le_of_lt (not_le.mp h2))
  unfold give
  rw [if_neg (not_not_intro h1), if_neg h2]
  simp [set_balance_of_nonneg, hb, writeLog]

lemma take_of_valid {n : String} {a : ℚ} {o : String} {t : ℕ} {s : LState}
    (h1 : is_account n s = true) (h2 : ¬ a ≤ 0)
    (h3 : ¬ a > getBalanceD n s) :
    take n a o t s =
      (none, ⟨writeBalance n (getBalanceD n s - a) s.data,
              s.log ++ [⟨t, o, n, -a⟩]⟩) := by
  have hb : 0 ≤ getBalanceD n s - a := sub_nonneg.mpr (not_lt.mp h3)
  unfold take
  rw [if_neg (not_not_intro h1), if_neg h2, if_neg h3]
  simp [set_balance_of_nonneg, hb, writeLog]

lemma set_of_valid {n : String} {a : ℚ} {o : String} {t : ℕ} {s : LState}
    (h1 : is_account n s = true) (h2 : ¬ a < 0) :
    set n a o t s =
      (none, ⟨writeBalance n a s.data,
              s.log ++ [⟨t, o, n, a - getBalanceD n s⟩]⟩) := by
  unfold set
  rw [if_neg (not_not_intro h1), if_neg h2]
  simp [set_balance_of_nonneg, not_lt.mp h2, writeLog]

lemma transfer_of_valid {d c : String} {a : ℚ} {t : ℕ} {s : LState}
    (h1 : is_account d s = true ∧ is_account c s = true) (h2 : ¬ a ≤ 0)
    (h3 : ¬ a > getBalanceD d s) (hc : 0 ≤ getBalanceD c s) :
    transfer d c a t s =
      (none, ⟨writeBalance c (getBalanceD c s + a)
                (writeBalance d (getBalanceD d s - a) s.data),
              s.log ++ [⟨t, d, c, a⟩]⟩) := by
  have hdb : 0 ≤ getBalanceD d s - a := sub_nonneg.mpr (not_lt.mp h3)
  have hcb : 0 ≤ getBalanceD c s + a :=
    add_nonneg hc (le_of_lt (not_le.mp h2))
  unfold transfer
  rw [if_neg (not_not_intro h1), if_neg h2, if_neg h3]
  simp [set_balance_of_nonneg, hdb, hcb, writeLog]

/-! ### Frame lemmas: only the named rows are touched, times never -/

lemma give_lookup_ne {x n : String} (hx : x ≠ n) (a : ℚ) (o : String)
    (t : ℕ) (s : LState) :
    lookupAccount x (give n a o t s).2.data = lookupAccount x s.data := by
  rcases give_snd_data n a o t s with h | h <;> rw [h]
  exact set_balance_lookup_ne hx _ _

lemma give_lookup_time (x n : String) (a : ℚ) (o : String) (t : ℕ)
    (s : LState) :
    (lookupAccount x (give n a o t s).2.data).map Account.time =
      (lookupAccount x s.data).map Account.time := by
  rcases give_snd_data n a o t s with h | h <;> rw [h]
  exact set_balance_lookup_time x n _ s

lemma take_lookup_ne {x n : String} (hx : x ≠ n) (a : ℚ) (o : String)
    (t : ℕ) (s : LState) :
    lookupAccount x (take n a o t s).2.data = lookupAccount x s.data := by
  rcases take_snd_data n a o t s with h | h <;> rw [h]
  exact set_balance_lookup_ne hx _ _

lemma take_lookup_time (x n : String) (a : ℚ) (o : String) (t : ℕ)
    (s : LState) :
    (lookupAccount x (take n a o t s).2.data).map Account.time =
      (lookupAccount x s.data).map Account.time := by
  rcases take_snd_data n a o t s with h | h <;> rw [h]
  exact set_balance_lookup_time x n _ s

lemma set_lookup_ne {x n : String} (hx : x ≠ n) (a : ℚ) (o : String)
    (t : ℕ) (s : LState) :
    lookupAccount x (set n a o t s).2.data = lookupAccount x s.data := by
  rcases set_snd_data n a o t s with h | h <;> rw [h]
  exact set_balance_lookup_ne hx _ _

lemma set_lookup_time (x n : String) (a : ℚ) (o : String) (t : ℕ)
    (s : LState) :
    (lookupAccount x (set n a o t s).2.data).map Account.time =
      (lookupAccount x s.data).map Account.time := by
  rcases set_snd_data n a o t s with h | h <;> rw [h]
  exact set_balance_lookup_time x n _ s

lemma transfer_lookup_ne {x d c : String} (hxd : x ≠ d) (hxc : x ≠ c)
    (a : ℚ) (t : ℕ) (s : LState) :
    lookupAccount x (transfer d c a t s).2.data = lookupAccount x s.data := by
  rcases transfer_snd_data d c a t s with h | h | h <;> rw [h]
  · exact set_balance_lookup_ne hxd _ _
  · rw [set_balance_lookup_ne hxc _ _]
    exact set_balance_lookup_ne hxd _ _

lemma transfer_lookup_time (x d c : String) (a : ℚ) (t : ℕ) (s : LState) :
    (lookupAccount x (transfer d c a t s).2.data).map Account.time =
      (lookupAccount x s.data).map Account.time := by
  rcases transfer_snd_data d c a t s with h | h | h <;> rw [h]
  · exact set_balance_lookup_time x d _ s
  · rw [set_balance_lookup_time x c _ _]
    exact set_balance_lookup_time x d _ s

/-! ### Account creation -/

lemma lookupAccount_create_self {n : String} {t : ℕ} {s : LState}
    (h : ¬ is_account n s = true) :
    lookupAccount n (create_account n t s).data = some ⟨t, 0⟩ := by
  unfold is_account at h
  have hn : lookupAccount n s.data = none := by
    cases hl : lookupAccount n s.data with
    | none => rfl
    | some a => rw [hl] at h; simp at h
  unfold create_account
  rw [if_pos (by unfold is_account; rw [hn]; simp)]
  rw [show ({ s with data := s.data ++ [(n, ⟨t, 0⟩)] } : LState).data =
    s.data ++ [(n, ⟨t, 0⟩)] from rfl]
  rw [lookupAccount_append_of_none _ hn]
  simp [lookupAccount]

lemma create_account_log (n : String) (t : ℕ) (s : LState) :
    (create_account n t s).log = s.log := by
  unfold create_account
  split <;> rfl

/-! ### Stability of the ranking sort -/

lemma filter_orderedInsert (b : ℚ) (x : String × ℚ) :
    ∀ L : List (String × ℚ),
      (List.orderedInsert rankGe x L).filter (fun q => decide (q.2 = b)) =
        if x.2 = b then x :: L.filter (fun q => decide (q.2 = b))
        else L.filter (fun q => decide (q.2 = b))
  | [] => by
      by_cases hx : x.2 = b <;> simp [List.orderedInsert, hx]
  | c :: L => by
      by_cases hrc : rankGe x c
      · rw [List.orderedInsert, if_pos hrc]
        by_cases hx : x.2 = b <;> simp [hx]
      · have hlt : x.2 < c.2 := lt_of_not_le hrc
        rw [List.orderedInsert, if_neg hrc]
        by_cases hx : x.2 = b
        · have hcb : ¬ (c.2 = b) := by
            rw [← hx]
            exact ne_of_gt hlt
          simp [hx, hcb, filter_orderedInsert b x L]
        · by_cases hcb : c.2 = b <;>
            simp [hx, hcb, filter_orderedInsert b x L]

lemma filter_insertionSort (b : ℚ) :
    ∀ l : List (String × ℚ),
      (List.insertionSort rankGe l).filter (fun q => decide (q.2 = b)) =
        l.filter (fun q => decide (q.2 = b))
  | [] => rfl
  | x :: l => by
      rw [List.insertionSort, filter_orderedInsert]
      by_cases hx : x.2 = b <;> simp [hx, filter_insertionSort b l]

lemma create_account_of_exists {n : String} {t : ℕ} {s : LState}
    (h : is_account n s = true) : create_account n t s = s := by
  unfold create_account
  rw [if_neg (not_not_intro h)]

/-! ## The claims -/

/-- C1.  The claim asserts conservation on every validated transfer and a
zero net effect for `debit == credit`.  The code violates it: starting
from the reachable state where account `a` holds `5` (created, then given
`5`), the self-transfer `transfer(a, a, 3)` passes validation, yet leaves
`a` with balance `8`, not `5` — the credit write, computed from the
pre-transfer balance, overwrites the debit write, so `3` units are
created out of nothing.  One log entry is still appended, as the claim
says. -/
theorem transfer_self_creates_money :
    getBalanceD "a" (give "a" 5 "Admin" 1 (create_account "a" 0 initState)).2 = 5 ∧
    (transfer "a" "a" 3 2 (give "a" 5 "Admin" 1 (create_account "a" 0 initState)).2).1 = none ∧
    getBalanceD "a"
      (transfer "a" "a" 3 2 (give "a" 5 "Admin" 1 (create_account "a" 0 initState)).2).2 = 8 ∧
    (transfer "a" "a" 3 2 (give "a" 5 "Admin" 1 (create_account "a" 0 initState)).2).2.log.length =
      (give "a" 5 "Admin" 1 (create_account "a" 0 initState)).2.log.length + 1 := by
  refine ⟨?_, ?_, ?_, ?_⟩ <;>
    norm_num [give, transfer, create_account, initState, is_account,
      lookupAccount, getBalanceD, set_balance, writeBalance, writeLog]

/-- C2.  Every state reachable from the empty ledger by any sequence of
API calls (successful or raising) has only non-negative balances. -/
theorem reachable_balance_nonneg (s : LState) (hs : Reachable s) :
    ∀ p ∈ s.data, 0 ≤ p.2.balance := by
  unfold Reachable at hs
  induction hs with
  | refl =>
    intro p hp
    simp [initState] at hp
  | tail _ hstep ih =>
    cases hstep with
    | create n t s0 => exact create_account_invD n t ih
    | give n a o t s0 => exact give_invD n a o t ih
    | take n a o t s0 => exact take_invD n a o t ih
    | set n a o t s0 => exact set_invD n a o t ih
    | transfer d c a t s0 => exact transfer_invD d c a t ih

theorem reachable_balance_nonneg_witness :
    0 ≤ getBalanceD "a" (create_account "a" 0 initState) := by
  have h := reachable_balance_nonneg (create_account "a" 0 initState)
    (Relation.ReflTransGen.single (Step.create "a" 0 initState))
  have hm : ("a", (⟨0, 0⟩ : Account)) ∈ (create_account "a" 0 initState).data := by
    decide
  exact h _ hm

/-- C3.  A call to give, take, set or transfer rejected with
`AccountNotExistsError`, `AmountIllegalError` or
`InsufficientBalanceError` returns the ledger exactly as it was: no
balance changes, no account appears, no log entry is appended. -/
theorem rejection_leaves_state_untouched :
    (∀ (n : String) (a : ℚ) (o : String) (t : ℕ) (s : LState) (e : VErr),
      (give n a o t s).1 = some e →
      e = VErr.accountNotExists ∨ e = VErr.amountIllegal ∨
        e = VErr.insufficientBalance →
      (give n a o t s).2 = s) ∧
    (∀ (n : String) (a : ℚ) (o : String) (t : ℕ) (s : LState) (e : VErr),
      (take n a o t s).1 = some e →
      e = VErr.accountNotExists ∨ e = VErr.amountIllegal ∨
        e = VErr.insufficientBalance →
      (take n a o t s).2 = s) ∧
    (∀ (n : String) (a : ℚ) (o : String) (t : ℕ) (s : LState) (e : VErr),
      (set n a o t s).1 = some e →
      e = VErr.accountNotExists ∨ e = VErr.amountIllegal ∨
        e = VErr.insufficientBalance →
      (set n a o t s).2 = s) ∧
    (∀ (d c : String) (a : ℚ) (t : ℕ) (s : LState) (e : VErr),
      (transfer d c a t s).1 = some e →
      e = VErr.accountNotExists ∨ e = VErr.amountIllegal ∨
        e = VErr.insufficientBalance →
      (transfer d c a t s).2 = s) := by
  refine ⟨?_, ?_, ?_, ?_⟩
  · intro n a o t s e h he
    have hne : e ≠ VErr.invariantViolation := by
      rcases he with rfl | rfl | rfl <;> decide
    rw [give_err h hne]
  · intro n a o t s e h he
    have hne : e ≠ VErr.invariantViolation := by
      rcases he with rfl | rfl | rfl <;> decide
    rw [take_err h hne]
  · intro n a o t s e h he
    have hne : e ≠ VErr.invariantViolation := by
      rcases he with rfl | rfl | rfl <;> decide
    rw [set_err h hne]
  · intro d c a t s e h he
    have hne : e ≠ VErr.invariantViolation := by
      rcases he with rfl | rfl | rfl <;> decide
    rw [transfer_err h hne]

theorem rejection_leaves_state_untouched_witness :
    (give "a" 1 "Admin" 0 initState).2 = initState ∧
    (take "a" 1 "Admin" 0 initState).2 = initState ∧
    (set "a" 1 "Admin" 0 initState).2 = initState ∧
    (transfer "a" "b" 1 0 initState).2 = initState := by
  refine ⟨?_, ?_, ?_, ?_⟩
  · exact rejection_leaves_state_untouched.1 "a" 1 "Admin" 0 initState
      VErr.accountNotExists (by decide) (by decide)
  · exact rejection_leaves_state_untouched.2.1 "a" 1 "Admin" 0 initState
      VErr.accountNotExists (by decide) (by decide)
  · exact rejection_leaves_state_untouched.2.2.1 "a" 1 "Admin" 0 initState
      VErr.accountNotExists (by decide) (by decide)
  · exact rejection_leaves_state_untouched.2.2.2 "a" "b" 1 0 initState
      VErr.accountNotExists (by decide) (by decide)

/-- C4.  Validation runs in a fixed order — existence check(s), then the
amount sign/range check, then (take/transfer) the sufficiency check — so
when several preconditions fail at once, the error of the earliest check is
raised: a missing account wins over any amount, and a bad amount wins
over insufficiency. -/
theorem validation_error_order :
    (∀ (n : String) (a : ℚ) (o : String) (t : ℕ) (s : LState),
      ¬ is_account n s = true → (give n a o t s).1 = some VErr.accountNotExists) ∧
    (∀ (n : String) (a : ℚ) (o : String) (t : ℕ) (s : LState),
      is_account n s = true → a ≤ 0 → (give n a o t s).1 = some VErr.amountIllegal) ∧
    (∀ (n : String) (a : ℚ) (o : String) (t : ℕ) (s : LState),
      ¬ is_account n s = true → (take n a o t s).1 = some VErr.accountNotExists) ∧
    (∀ (n : String) (a : ℚ) (o : String) (t : ℕ) (s : LState),
      is_account n s = true → a ≤ 0 → (take n a o t s).1 = some VErr.amountIllegal) ∧
    (∀ (n : String) (a : ℚ) (o : String) (t : ℕ) (s : LState),
      is_account n s = true → 0 < a → getBalanceD n s < a →
      (take n a o t s).1 = some VErr.insufficientBalance) ∧
    (∀ (n : String) (a : ℚ) (o : String) (t : ℕ) (s : LState),
      ¬ is_account n s = true → (set n a o t s).1 = some VErr.accountNotExists) ∧
    (∀ (n : String) (a : ℚ) (o : String) (t : ℕ) (s : LState),
      is_account n s = true → a < 0 → (set n a o t s).1 = some VErr.amountIllegal) ∧
    (∀ (d c : String) (a : ℚ) (t : ℕ) (s : LState),
      ¬ (is_account d s = true ∧ is_account c s = true) →
      (transfer d c a t s).1 = some VErr.accountNotExists) ∧
    (∀ (d c : String) (a : ℚ) (t : ℕ) (s : LState),
      is_account d s = true → is_account c s = true → a ≤ 0 →
      (transfer d c a t s).1 = some VErr.amountIllegal) ∧
    (∀ (d c : String) (a : ℚ) (t : ℕ) (s : LState),
      is_account d s = true → is_account c s = true → 0 < a →
      getBalanceD d s < a →
      (transfer d c a t s).1 = some VErr.insufficientBalance) := by
  refine ⟨?_, ?_, ?_, ?_, ?_, ?_, ?_, ?_, ?_, ?_⟩
  · intro n a o t s h
    unfold give
    rw [if_pos h]
  · intro n a o t s h1 h2
    unfold give
    rw [if_neg (not_not_intro h1), if_pos h2]
  · intro n a o t s h
    unfold take
    rw [if_pos h]
  · intro n a o t s h1 h2
    unfold take
    rw [if_neg (not_not_intro h1), if_pos h2]
  · intro n a o t s h1 h2 h3
    unfold take
    rw [if_neg (not_not_intro h1), if_neg (not_le.mpr h2), if_pos h3]
  · intro n a o t s h
    unfold set
    rw [if_pos h]
  · intro n a o t s h1 h2
    unfold set
    rw [if_neg (not_not_intro h1), if_pos h2]
  · intro d c a t s h
    unfold transfer
    rw [if_pos h]
  · intro d c a t s h1 h2 h3
    unfold transfer
    rw [if_neg (not_not_intro ⟨h1, h2⟩), if_pos h3]
  · intro d c a t s h1 h2 h3 h4
    unfold transfer
    rw [if_neg (not_not_intro ⟨h1, h2⟩), if_neg (not_le.mpr h3), if_pos h4]

theorem validation_error_order_witness :
    (take "a" (-1) "Admin" 0 initState).1 = some VErr.accountNotExists ∧
    (take "a" (-1) "Admin" 0 (create_account "a" 0 initState)).1 =
      some VErr.amountIllegal ∧
    (take "a" 7 "Admin" 0 (create_account "a" 0 initState)).1 =
      some VErr.insufficientBalance ∧
    (give "b" (-1) "Admin" 0 initState).1 = some VErr.accountNotExists ∧
    (set "b" (-1) "Admin" 0 initState).1 = some VErr.accountNotExists ∧
    (transfer "a" "b" (-1) 0 (create_account "a" 0 initState)).1 =
      some VErr.accountNotExists ∧
    (transfer "a" "a" (-1) 0 (create_account "a" 0 initState)).1 =
      some VErr.amountIllegal ∧
    (transfer "a" "a" 7 0 (create_account "a" 0 initState)).1 =
      some VErr.insufficientBalance := by
  refine ⟨?_, ?_, ?_, ?_, ?_, ?_, ?_, ?_⟩
  · exact validation_error_order.2.2.1 "a" (-1) "Admin" 0 initState (by decide)
  · exact validation_error_order.2.2.2.1 "a" (-1) "Admin" 0
      (create_account "a" 0 initState) (by decide) (by norm_num)
  · exact validation_error_order.2.2.2.2.1 "a" 7 "Admin" 0
      (create_account "a" 0 initState) (by decide) (by norm_num) (by decide)
  · exact validation_error_order.1 "b" (-1) "Admin" 0 initState (by decide)
  · exact validation_error_order.2.2.2.2.2.1 "b" (-1) "Admin" 0 initState
      (by decide)
  · exact validation_error_order.2.2.2.2.2.2.2.1 "a" "b" (-1) 0
      (create_account "a" 0 initState) (by decide)
  · exact validation_error_order.2.2.2.2.2.2.2.2.1 "a" "a" (-1) 0
      (create_account "a" 0 initState) (by decide) (by decide) (by norm_num)
  · exact validation_error_order.2.2.2.2.2.2.2.2.2 "a" "a" 7 0
      (create_account "a" 0 initState) (by decide) (by decide) (by norm_num)
      (by decide)

/-- C5.  `create_account` is idempotent: a second creation (at any later
timestamp) is a no-op that raises nothing (the embedding returns a plain
state, as `create_account` raises no exception), appends no log entry,
and keeps the balance and `opened_at` written by the first creation; a
fresh account starts at balance `0`. -/
theorem create_account_idempotent (name : String) (now now2 : ℕ) (s : LState) :
    create_account name now2 (create_account name now s) =
      create_account name now s ∧
    (create_account name now s).log = s.log ∧
    (is_account name s = true → create_account name now s = s) ∧
    (¬ is_account name s = true →
      lookupAccount name (create_account name now s).data = some ⟨now, 0⟩) := by
  refine ⟨?_, create_account_log name now s, fun h => create_account_of_exists h,
    fun h => lookupAccount_create_self h⟩
  by_cases h : is_account name s = true
  · rw [create_account_of_exists h]
    exact create_account_of_exists h
  · have hacc : is_account name (create_account name now s) = true := by
      unfold is_account
      rw [lookupAccount_create_self h]
      rfl
    exact create_account_of_exists hacc

theorem create_account_idempotent_witness :
    create_account "a" 5 (create_account "a" 3 initState) =
      create_account "a" 3 initState ∧
    lookupAccount "a" (create_account "a" 3 initState).data = some ⟨3, 0⟩ := by
  refine ⟨(create_account_idempotent "a" 3 5 initState).1, ?_⟩
  exact (create_account_idempotent "a" 3 5 initState).2.2.2 (by decide)

/-- C6.  `set` requires an existing account and `amount >= 0` (zero
allowed); on success the balance becomes exactly `amount` and one log
entry `(debit=operator, credit=name)` is appended whose amount is the
delta `amount - old_balance`. -/
theorem set_spec (name : String) (amount : ℚ) (operator : String) (now : ℕ)
    (s : LState) (hacc : is_account name s = true) (hamt : 0 ≤ amount) :
    (set name amount operator now s).1 = none ∧
    getBalanceD name (set name amount operator now s).2 = amount ∧
    (set name amount operator now s).2.log =
      s.log ++ [⟨now, operator, name, amount - getBalanceD name s⟩] := by
  obtain ⟨acct, hl⟩ := is_account_iff.mp hacc
  rw [set_of_valid hacc (not_lt.mpr hamt)]
  exact ⟨rfl, getBalanceD_after_write hl amount _, rfl⟩

theorem set_spec_witness :
    0 ≤ (50 : ℚ) ∧
    (set "a" 50 "Admin" 9 (⟨[("a", ⟨0, 30⟩)], []⟩ : LState)).2.log =
      [] ++ [⟨9, "Admin", "a", 50 - getBalanceD "a" (⟨[("a", ⟨0, 30⟩)], []⟩ : LState)⟩] := by
  refine ⟨by norm_num, ?_⟩
  exact (set_spec "a" 50 "Admin" 9 (⟨[("a", ⟨0, 30⟩)], []⟩ : LState)
    (by decide) (by norm_num)).2.2

/-- C7.  For an existing account with non-negative balance (the invariant
of every reachable state) and any `X > 0`, `give(a, X)` then `take(a, X)`
both succeed, the balance comes back to its original value, and exactly
two log entries are appended: `(operator, a, +X)` then
`(operator, a, -X)`. -/
theorem give_take_inverse (a operator : String) (X : ℚ) (t1 t2 : ℕ)
    (s : LState) (hacc : is_account a s = true) (hX : 0 < X)
    (hbal : 0 ≤ getBalanceD a s) :
    (give a X operator t1 s).1 = none ∧
    (take a X operator t2 (give a X operator t1 s).2).1 = none ∧
    getBalanceD a (take a X operator t2 (give a X operator t1 s).2).2 =
      getBalanceD a s ∧
    (take a X operator t2 (give a X operator t1 s).2).2.log =
      s.log ++ [⟨t1, operator, a, X⟩, ⟨t2, operator, a, -X⟩] := by
  obtain ⟨acct, hl⟩ := is_account_iff.mp hacc
  have hgive := @give_of_valid a X operator t1 s hacc (not_le.mpr hX) hbal
  have hg1 : (give a X operator t1 s).1 = none := by rw [hgive]
  have hg2 : (give a X operator t1 s).2 =
      (⟨writeBalance a (getBalanceD a s + X) s.data,
        s.log ++ [⟨t1, operator, a, X⟩]⟩ : LState) := by
    rw [hgive]
  have hlD : lookupAccount a
      (⟨writeBalance a (getBalanceD a s + X) s.data,
        s.log ++ [⟨t1, operator, a, X⟩]⟩ : LState).data =
      some { acct with balance := getBalanceD a s + X } := by
    rw [show (⟨writeBalance a (getBalanceD a s + X) s.data,
        s.log ++ [⟨t1, operator, a, X⟩]⟩ : LState).data =
      writeBalance a (getBalanceD a s + X) s.data from rfl,
      lookupAccount_writeBalance_self, hl]
    rfl
  have hacc1 : is_account a
      (⟨writeBalance a (getBalanceD a s + X) s.data,
        s.log ++ [⟨t1, operator, a, X⟩]⟩ : LState) = true := by
    unfold is_account
    rw [hlD]
    rfl
  have hbal1 : getBalanceD a
      (⟨writeBalance a (getBalanceD a s + X) s.data,
        s.log ++ [⟨t1, operator, a, X⟩]⟩ : LState) = getBalanceD a s + X :=
    getBalanceD_after_write hl _ _
  have h3 : ¬ X > getBalanceD a
      (⟨writeBalance a (getBalanceD a s + X) s.data,
        s.log ++ [⟨t1, operator, a, X⟩]⟩ : LState) := by
    rw [hbal1]
    intro hgt
    nlinarith
  have htake := @take_of_valid a X operator t2
    (⟨writeBalance a (getBalanceD a s + X) s.data,
      s.log ++ [⟨t1, operator, a, X⟩]⟩ : LState) hacc1 (not_le.mpr hX) h3
  rw [hg2]
  refine ⟨hg1, ?_, ?_, ?_⟩
  · rw [htake]
  · rw [htake]
    have := getBalanceD_after_write hlD
      (getBalanceD a (⟨writeBalance a (getBalanceD a s + X) s.data,
        s.log ++ [⟨t1, operator, a, X⟩]⟩ : LState) - X)
      ((⟨writeBalance a (getBalanceD a s + X) s.data,
        s.log ++ [⟨t1, operator, a, X⟩]⟩ : LState).log ++ [⟨t2, operator, a, -X⟩])
    rw [this, hbal1]
    exact add_sub_cancel_right (getBalanceD a s) X
  · rw [htake]
    simp

theorem give_take_inverse_witness :
    (give "a" 4 "Admin" 1 (⟨[("a", ⟨0, 5⟩)], []⟩ : LState)).1 = none ∧
    getBalanceD "a"
      (take "a" 4 "Admin" 2
        (give "a" 4 "Admin" 1 (⟨[("a", ⟨0, 5⟩)], []⟩ : LState)).2).2 =
      getBalanceD "a" (⟨[("a", ⟨0, 5⟩)], []⟩ : LState) ∧
    (take "a" 4 "Admin" 2
        (give "a" 4 "Admin" 1 (⟨[("a", ⟨0, 5⟩)], []⟩ : LState)).2).2.log =
      [] ++ [⟨1, "Admin", "a", 4⟩, ⟨2, "Admin", "a", -4⟩] := by
  have h := give_take_inverse "a" "Admin" 4 1 2 (⟨[("a", ⟨0, 5⟩)], []⟩ : LState)
    (by decide) (by norm_num) (by decide)
  exact ⟨h.1, h.2.2.1, h.2.2.2⟩

/-- C8.  `get_ranking` returns exactly the existing accounts (a
permutation of the rows, so each appears once when names are unique),
ordered by balance descending, and rows with equal balances keep their
insertion (creation) order: filtering the output at any fixed balance
gives back the corresponding rows of the table in table order. -/
theorem get_ranking_spec (s : LState) :
    (get_ranking s).Perm (s.data.map fun p => (p.1, p.2.balance)) ∧
    List.Pairwise rankGe (get_ranking s) ∧
    ∀ b : ℚ, (get_ranking s).filter (fun q => decide (q.2 = b)) =
      (s.data.map fun p => (p.1, p.2.balance)).filter
        (fun q => decide (q.2 = b)) :=
  ⟨List.perm_insertionSort rankGe _, List.sorted_insertionSort rankGe _,
    fun b => filter_insertionSort b _⟩

/-- C9.  The `check ( balance>=0 )` constraint of the storage layer rejects
any write of a negative balance independently of API validation: the
write fails with the storage-level error and the state — in particular
the stored balance — is unchanged. -/
theorem set_balance_rejects_negative (name : String) (b : ℚ) (s : LState)
    (h : b < 0) :
    set_balance name b s = (some VErr.invariantViolation, s) := by
  unfold set_balance
  rw [if_pos h]

theorem set_balance_rejects_negative_witness :
    set_balance "a" (-1) (⟨[("a", ⟨0, 5⟩)], []⟩ : LState) =
      (some VErr.invariantViolation, (⟨[("a", ⟨0, 5⟩)], []⟩ : LState)) :=
  set_balance_rejects_negative "a" (-1) (⟨[("a", ⟨0, 5⟩)], []⟩ : LState)
    (by norm_num)

/-- C10.  Frame property: give/take/set touch only the row of the named
account, transfer touches only the debit and credit rows, and no
operation changes the `opened_at` timestamp (`Account.time`) of any
account, the mutated rows included — whether the call succeeds or
raises. -/
theorem mutators_frame :
    (∀ (x n : String) (a : ℚ) (o : String) (t : ℕ) (s : LState), x ≠ n →
      lookupAccount x (give n a o t s).2.data = lookupAccount x s.data) ∧
    (∀ (x n : String) (a : ℚ) (o : String) (t : ℕ) (s : LState),
      (lookupAccount x (give n a o t s).2.data).map Account.time =
        (lookupAccount x s.data).map Account.time) ∧
    (∀ (x n : String) (a : ℚ) (o : String) (t : ℕ) (s : LState), x ≠ n →
      lookupAccount x (take n a o t s).2.data = lookupAccount x s.data) ∧
    (∀ (x n : String) (a : ℚ) (o : String) (t : ℕ) (s : LState),
      (lookupAccount x (take n a o t s).2.data).map Account.time =
        (lookupAccount x s.data).map Account.time) ∧
    (∀ (x n : String) (a : ℚ) (o : String) (t : ℕ) (s : LState), x ≠ n →
      lookupAccount x (set n a o t s).2.data = lookupAccount x s.data) ∧
    (∀ (x n : String) (a : ℚ) (o : String) (t : ℕ) (s : LState),
      (lookupAccount x (set n a o t s).2.data).map Account.time =
        (lookupAccount x s.data).map Account.time) ∧
    (∀ (x d c : String) (a : ℚ) (t : ℕ) (s : LState), x ≠ d → x ≠ c →
      lookupAccount x (transfer d c a t s).2.data = lookupAccount x s.data) ∧
    (∀ (x d c : String) (a : ℚ) (t : ℕ) (s : LState),
      (lookupAccount x (transfer d c a t s).2.data).map Account.time =
        (lookupAccount x s.data).map Account.time) := by
  refine ⟨?_, ?_, ?_, ?_, ?_, ?_, ?_, ?_⟩
  · intro x n a o t s hx
    exact give_lookup_ne hx a o t s
  · intro x n a o t s
    exact give_lookup_time x n a o t s
  · intro x n a o t s hx
    exact take_lookup_ne hx a o t s
  · intro x n a o t s
    exact take_lookup_time x n a o t s
  · intro x n a o t s hx
    exact set_lookup_ne hx a o t s
  · intro x n a o t s
    exact set_lookup_time x n a o t s
  · intro x d c a t s hxd hxc
    exact transfer_lookup_ne hxd hxc a t s
  · intro x d c a t s
    exact transfer_lookup_time x d c a t s

theorem mutators_frame_witness :
    lookupAccount "b" (give "a" 1 "Admin" 0
      (⟨[("a", ⟨0, 5⟩), ("b", ⟨1, 2⟩)], []⟩ : LState)).2.data =
      lookupAccount "b" (⟨[("a", ⟨0, 5⟩), ("b", ⟨1, 2⟩)], []⟩ : LState).data ∧
    (lookupAccount "a" (take "a" 1 "Admin" 0
      (⟨[("a", ⟨0, 5⟩), ("b", ⟨1, 2⟩)], []⟩ : LState)).2.data).map Account.time =
      (lookupAccount "a"
        (⟨[("a", ⟨0, 5⟩), ("b", ⟨1, 2⟩)], []⟩ : LState).data).map Account.time ∧
    lookupAccount "b" (set "a" 1 "Admin" 0
      (⟨[("a", ⟨0, 5⟩), ("b", ⟨1, 2⟩)], []⟩ : LState)).2.data =
      lookupAccount "b" (⟨[("a", ⟨0, 5⟩), ("b", ⟨1, 2⟩)], []⟩ : LState).data ∧
    lookupAccount "c" (transfer "a" "b" 1 0
      (⟨[("a", ⟨0, 5⟩), ("b", ⟨1, 2⟩)], []⟩ : LState)).2.data =
      lookupAccount "c" (⟨[("a", ⟨0, 5⟩), ("b", ⟨1, 2⟩)], []⟩ : LState).data := by
  refine ⟨?_, ?_, ?_, ?_⟩
  · exact mutators_frame.1 "b" "a" 1 "Admin" 0
      (⟨[("a", ⟨0, 5⟩), ("b", ⟨1, 2⟩)], []⟩ : LState) (by decide)
  · exact mutators_frame.2.2.2.1 "a" "a" 1 "Admin" 0
      (⟨[("a", ⟨0, 5⟩), ("b", ⟨1, 2⟩)], []⟩ : LState)
  · exact mutators_frame.2.2.2.2.1 "b" "a" 1 "Admin" 0
      (⟨[("a", ⟨0, 5⟩), ("b", ⟨1, 2⟩)], []⟩ : LState) (by decide)
  · exact mutators_frame.2.2.2.2.2.2.1 "c" "a" "b" 1 0
      (⟨[("a", ⟨0, 5⟩), ("b", ⟨1, 2⟩)], []⟩ : LState) (by decide) (by decide)

end Vault
